import Mathlib

/-!
Shallow embedding of `sherpa/cpp_api/websocket/online-websocket-server-impl.cc`:
the decoder dispatcher (`OnlineWebsocketDecoder::Push` / `Decode`), the
connection registry (`OnlineWebsocketServer::OnOpen/OnClose/Contains/Send`),
the HTTP fallback (`OnHttp`) and the WebSocket message handler (`OnMessage`).

Connection handles (`connection_hdl`) and stream identities (the raw pointer
`s.get()` used as set key) are modelled as natural numbers.  A 32-bit float
sample is modelled as its four host-endian bytes (a `List Nat` of length 4),
so that reinterpretation of a byte payload as floats is byte-exact without
modelling IEEE-754 arithmetic (no arithmetic is ever performed on samples).
External collaborators (recognizer readiness, decode results, the static file
server, the transport) are passed in as explicit environments, and the
`asio::post` calls become explicit effect values.
-/

namespace Sherpa

/-- A `connection_hdl`. -/
abbrev Hdl := Nat

/-- A stream identity: the raw pointer `s.get()` used as the key of `active_`. -/
abbrev StreamId := Nat

/-- One 32-bit float sample, as its four host-endian bytes. -/
abbrev Sample := List Nat

/-- The float `0.0f`: all four bytes zero (IEEE-754 positive zero). -/
def zeroSample : Sample := [0, 0, 0, 0]

/-- Per-connection decoding state of an `OnlineStream`: the accumulated
waveform and whether `InputFinished()` has been called. -/
structure OnlineStream where
  samples : List Sample
  finished : Bool
deriving DecidableEq, Repr

/-- `OnlineStream::AcceptWaveform(sample_rate, tensor)`: appends the given
samples to the stream-owned buffer.  The sample rate is forwarded to feature
extraction, which is outside the model. -/
def OnlineStream.AcceptWaveform (s : OnlineStream) (_sampleRate : Nat)
    (w : List Sample) : OnlineStream :=
  { s with samples := s.samples ++ w }

/-- `OnlineStream::InputFinished()`. -/
def OnlineStream.InputFinished (s : OnlineStream) : OnlineStream :=
  { s with finished := true }

/-- The mutable state of `OnlineWebsocketDecoder` guarded by `mutex_`:
the FIFO `streams_` of `(hdl, stream)` pairs and the `std::set` `active_`
of stream identities. -/
structure DecoderState where
  streams : List (Hdl × StreamId)
  active : Finset StreamId
deriving DecidableEq

/-- `OnlineWebsocketDecoder::Push(hdl, s)`: under the lock, return unchanged
if `active_.count(s.get()) > 0`; else append `(hdl, s)` to `streams_` and
insert `s.get()` into `active_`. -/
def OnlineWebsocketDecoder.Push (hdl : Hdl) (s : StreamId)
    (st : DecoderState) : DecoderState :=
  if s ∈ st.active then st
  else { streams := st.streams ++ [(hdl, s)], active := insert s st.active }

/-- Outcomes of the external calls made by `OnlineWebsocketDecoder::Decode`:
`contains` is `server_->Contains(hdl)` at the continuation decision,
`isReady` is `recognizer_->IsReady(s.get())` after the decode step,
`resultJson` is `recognizer_->GetResult(s.get()).AsJsonString()`, and
`isLastFrame` is `s->IsLastFrame(s->NumFramesReady() - 1)`. -/
structure DecodeEnv where
  contains : Hdl → Bool
  isReady : StreamId → Bool
  resultJson : StreamId → String
  isLastFrame : StreamId → Bool

/-- Observable side effects: `asio::post` of a `Send` to the connection
context, `asio::post` of a `Decode` to the work context, and the blocking
`recognizer_->DecodeStream(s.get())` call. -/
inductive Effect where
  | postSend (hdl : Hdl) (text : String)
  | postDecode
  | decodeStream (s : StreamId)
deriving DecidableEq, Repr

/-- `OnlineWebsocketDecoder::Decode()` as one big step: return unchanged on an
empty queue; otherwise pop the head `(hdl, s)`, run `DecodeStream`, post the
hypothesis JSON, then either re-append `(hdl, s)` and post another `Decode`
(when `Contains(hdl) && IsReady(s)`), or erase `s` from `active_` and post
`"Done"` exactly when `IsLastFrame(NumFramesReady() - 1)`. -/
def OnlineWebsocketDecoder.Decode (env : DecodeEnv) (st : DecoderState) :
    DecoderState × List Effect :=
  match st.streams with
  | [] => (st, [])
  | (hdl, s) :: rest =>
    if env.contains hdl && env.isReady s then
      (⟨rest ++ [(hdl, s)], st.active⟩,
        [Effect.decodeStream s, Effect.postSend hdl (env.resultJson s),
          Effect.postDecode])
    else
      (⟨rest, st.active.erase s⟩,
        [Effect.decodeStream s, Effect.postSend hdl (env.resultJson s)] ++
          (if env.isLastFrame s then [Effect.postSend hdl "Done"] else []))

/-- A dispatcher state observed between lock-protected critical sections:
`core` is the lock-guarded `(streams_, active_)`, and `inflight` lists the
`(hdl, s)` pairs popped by a `Decode` whose continuation decision has not yet
run (the decode step for them is in flight). -/
structure DispatchState where
  core : DecoderState
  inflight : List (Hdl × StreamId)

/-- Atomic transitions of the dispatcher, one per critical section of the
source: a whole `Push`; a `Decode` that finds the queue empty; the pop at the
start of `Decode` (the pair becomes in flight); the re-append of an in-flight
pair when `Contains(hdl) && IsReady(s)`; and the `active_.erase` when the
stream does not continue. -/
inductive DispatchStep (env : DecodeEnv) : DispatchState → DispatchState → Prop
  | push (hdl : Hdl) (s : StreamId) (st : DispatchState) :
      DispatchStep env st ⟨OnlineWebsocketDecoder.Push hdl s st.core, st.inflight⟩
  | decodeEmpty (st : DispatchState) :
      st.core.streams = [] → DispatchStep env st st
  | decodeBegin (st : DispatchState) (p : Hdl × StreamId)
      (rest : List (Hdl × StreamId)) :
      st.core.streams = p :: rest →
      DispatchStep env st ⟨⟨rest, st.core.active⟩, p :: st.inflight⟩
  | decodeContinue (st : DispatchState) (p : Hdl × StreamId) :
      p ∈ st.inflight →
      env.contains p.1 = true → env.isReady p.2 = true →
      DispatchStep env st
        ⟨⟨st.core.streams ++ [p], st.core.active⟩, st.inflight.erase p⟩
  | decodeFinish (st : DispatchState) (p : Hdl × StreamId) :
      p ∈ st.inflight →
      ¬(env.contains p.1 = true ∧ env.isReady p.2 = true) →
      DispatchStep env st
        ⟨⟨st.core.streams, st.core.active.erase p.2⟩, st.inflight.erase p⟩

/-- The Active Set invariant: a stream identity is in `active_` iff it is in
the ready queue or a decode step for it is in flight, and the concatenation of
queued and in-flight stream identities has no duplicate (in particular the
queue itself never holds two entries for one stream identity). -/
def DispatchState.inv (st : DispatchState) : Prop :=
  (∀ s : StreamId, s ∈ st.core.active ↔
      s ∈ st.core.streams.map Prod.snd ∨ s ∈ st.inflight.map Prod.snd) ∧
  (st.core.streams.map Prod.snd ++ st.inflight.map Prod.snd).Nodup

/-- If a transition keeps the Active Set and only permutes the combined
queued/in-flight identities, the invariant transfers. -/
theorem DispatchState.inv_of_perm (st st' : DispatchState)
    (hact : st'.core.active = st.core.active)
    (hperm : (st'.core.streams.map Prod.snd ++ st'.inflight.map Prod.snd).Perm
      (st.core.streams.map Prod.snd ++ st.inflight.map Prod.snd))
    (hinv : st.inv) : st'.inv := by
  constructor
  · intro x
    rw [hact, hinv.1 x, ← List.mem_append, ← List.mem_append, hperm.mem_iff]
  · exact hperm.nodup_iff.mpr hinv.2

theorem perm_cons_erase_of_mem {α : Type} [BEq α] [LawfulBEq α] {a : α}
    {l : List α} (h : a ∈ l) : l.Perm (a :: l.erase a) := by
  induction l with
  | nil => cases h
  | cons b t ih =>
    rcases eq_or_ne b a with rfl | hne
    · rw [List.erase_cons_head]
    · have hmem : a ∈ t := by
        rcases List.mem_cons.mp h with h' | h'
        · exact absurd h'.symm hne
        · exact h'
      rw [List.erase_cons_tail (by simpa using hne)]
      exact ((ih hmem).cons b).trans (List.Perm.swap a b _)

theorem erase_snd_perm (p : Hdl × StreamId) (l : List (Hdl × StreamId))
    (hp : p ∈ l) : (l.map Prod.snd).Perm (p.2 :: (l.erase p).map Prod.snd) := by
  simpa using (perm_cons_erase_of_mem hp).map Prod.snd

/-- C1. At every observable instant, a stream identity is in the Active Set
iff it is in the ready queue or a decode step for it is in flight, and the
ready queue (together with the in-flight pairs) never holds two entries for
the same stream identity: every atomic step of the dispatcher — a `Push`, an
empty-queue `Decode`, the pop at the start of `Decode`, the re-append path
(which bypasses `Push`), and the final `active_.erase` — preserves the
invariant. -/
theorem C1_active_set_invariant_preserved (env : DecodeEnv)
    (st st' : DispatchState) (hinv : st.inv)
    (hstep : DispatchStep env st st') : st'.inv := by
  cases hstep with
  | push hdl s st =>
    by_cases hs : s ∈ st.core.active
    · simpa [OnlineWebsocketDecoder.Push, hs] using hinv
    · have hnq : s ∉ st.core.streams.map Prod.snd := fun h =>
        hs ((hinv.1 s).mpr (Or.inl h))
      have hni : s ∉ st.inflight.map Prod.snd := fun h =>
        hs ((hinv.1 s).mpr (Or.inr h))
      constructor
      · intro x
        simp only [OnlineWebsocketDecoder.Push, hs, if_false,
          List.map_append, List.map_cons, List.map_nil, List.mem_append,
          List.mem_singleton, Finset.mem_insert, hinv.1 x]
        tauto
      · simp only [OnlineWebsocketDecoder.Push, hs, if_false, List.map_append,
          List.map_cons, List.map_nil]
        have hperm :
            ((st.core.streams.map Prod.snd ++ [s]) ++ st.inflight.map Prod.snd).Perm
              (s :: (st.core.streams.map Prod.snd ++ st.inflight.map Prod.snd)) := by
          rw [List.append_assoc]
          exact List.perm_middle
        refine hperm.nodup_iff.mpr (List.nodup_cons.mpr ⟨?_, hinv.2⟩)
        simp only [List.mem_append]
        tauto
  | decodeEmpty st hq => exact hinv
  | decodeBegin st p rest hq =>
    refine DispatchState.inv_of_perm st
      ⟨⟨rest, st.core.active⟩, p :: st.inflight⟩ rfl ?_ hinv
    rw [hq]
    simp only [List.map_cons]
    exact List.perm_middle
  | decodeContinue st p hp hc hr =>
    refine DispatchState.inv_of_perm st
      ⟨⟨st.core.streams ++ [p], st.core.active⟩, st.inflight.erase p⟩
      rfl ?_ hinv
    have h1 := erase_snd_perm p st.inflight hp
    have h2 : ((st.core.streams ++ [p]).map Prod.snd ++
          (st.inflight.erase p).map Prod.snd)
        = st.core.streams.map Prod.snd ++
          (p.2 :: (st.inflight.erase p).map Prod.snd) := by
      simp [List.append_assoc]
    rw [h2]
    exact List.Perm.append_left _ h1.symm
  | decodeFinish st p hp hguard =>
    have h1 := erase_snd_perm p st.inflight hp
    have hperm : (st.core.streams.map Prod.snd ++ st.inflight.map Prod.snd).Perm
        (p.2 :: (st.core.streams.map Prod.snd ++
          (st.inflight.erase p).map Prod.snd)) :=
      (List.Perm.append_left _ h1).trans List.perm_middle
    have hnodup := hperm.nodup_iff.mp hinv.2
    have hp2 : p.2 ∉ st.core.streams.map Prod.snd ++
        (st.inflight.erase p).map Prod.snd := (List.nodup_cons.mp hnodup).1
    constructor
    · intro x
      simp only [Finset.mem_erase, hinv.1 x]
      constructor
      · rintro ⟨hne, hx⟩
        have : x ∈ st.core.streams.map Prod.snd ++ st.inflight.map Prod.snd :=
          List.mem_append.mpr hx
        have hx' := hperm.mem_iff.mp this
        simp only [List.mem_cons, List.mem_append] at hx'
        rcases hx' with h | h | h
        · exact absurd h hne
        · exact Or.inl h
        · exact Or.inr h
      · intro hx
        have hxmem : x ∈ st.core.streams.map Prod.snd ++
            (st.inflight.erase p).map Prod.snd := List.mem_append.mpr hx
        have hne : x ≠ p.2 := fun h => hp2 (h ▸ hxmem)
        have : x ∈ st.core.streams.map Prod.snd ++ st.inflight.map Prod.snd :=
          hperm.mem_iff.mpr (List.mem_cons.mpr (Or.inr hxmem))
        exact ⟨hne, List.mem_append.mp this⟩
    · exact (List.nodup_cons.mp hnodup).2

/-- Auxiliary concrete states for exercising the dispatcher invariant. -/
def dispatchStateEx : DispatchState := ⟨⟨[], ∅⟩, []⟩

/-- Witness: the preservation theorem applied to a concrete `Push 0 1` step
from the empty dispatcher state. -/
theorem C1_active_set_invariant_preserved_witness :
    dispatchStateEx.inv ∧
      (DispatchState.mk (OnlineWebsocketDecoder.Push 0 1 dispatchStateEx.core)
        dispatchStateEx.inflight).inv := by
  have h0 : dispatchStateEx.inv := by
    constructor
    · intro s; simp [dispatchStateEx]
    · simp [dispatchStateEx]
  exact ⟨h0, C1_active_set_invariant_preserved
    ⟨fun _ => true, fun _ => true, fun _ => "", fun _ => false⟩ _ _ h0
    (DispatchStep.push 0 1 dispatchStateEx)⟩

/-- `k` successive calls of `Push hdl s` with no decode in between. -/
def pushIter (hdl : Hdl) (s : StreamId) : Nat → DecoderState → DecoderState
  | 0, st => st
  | k + 1, st => pushIter hdl s k (OnlineWebsocketDecoder.Push hdl s st)

theorem push_mem_active (hdl : Hdl) (s : StreamId) (st : DecoderState) :
    s ∈ (OnlineWebsocketDecoder.Push hdl s st).active := by
  unfold OnlineWebsocketDecoder.Push
  split <;> simp_all

theorem push_of_mem_active (hdl : Hdl) (s : StreamId) (st : DecoderState)
    (h : s ∈ st.active) : OnlineWebsocketDecoder.Push hdl s st = st := by
  simp [OnlineWebsocketDecoder.Push, h]

theorem pushIter_of_mem_active (hdl : Hdl) (s : StreamId) (k : Nat)
    (st : DecoderState) (h : s ∈ st.active) : pushIter hdl s k st = st := by
  induction k with
  | zero => rfl
  | succ k ih => rw [pushIter, push_of_mem_active hdl s st h, ih]

/-- C2. `Push(hdl, s)` is idempotent: if `s` is already in the Active Set it
leaves queue and Active Set unchanged, otherwise it appends `(hdl, s)` to the
queue tail and inserts `s`; consequently pushing the same pair `k ≥ 1` times
between decode boundaries leaves exactly one queue entry for `s`. -/
theorem C2_push_idempotent (hdl : Hdl) (s : StreamId) (st : DecoderState) :
    (s ∈ st.active → OnlineWebsocketDecoder.Push hdl s st = st) ∧
    (s ∉ st.active → OnlineWebsocketDecoder.Push hdl s st =
      ⟨st.streams ++ [(hdl, s)], insert s st.active⟩) ∧
    (∀ k, 1 ≤ k → s ∉ st.active → (st.streams.map Prod.snd).count s = 0 →
      ((pushIter hdl s k st).streams.map Prod.snd).count s = 1) := by
  refine ⟨push_of_mem_active hdl s st, ?_, ?_⟩
  · intro h
    simp [OnlineWebsocketDecoder.Push, h]
  · intro k hk hs hcount
    obtain ⟨m, rfl⟩ : ∃ m, k = m + 1 := ⟨k - 1, by omega⟩
    rw [pushIter,
      pushIter_of_mem_active hdl s m _ (push_mem_active hdl s st)]
    simp [OnlineWebsocketDecoder.Push, hs, hcount]

/-- Witness for C2: pushing `(0, 5)` three times into the empty dispatcher
leaves exactly one queue entry for stream `5`. -/
theorem C2_push_idempotent_witness :
    (5 : StreamId) ∉ (DecoderState.mk [] ∅).active ∧
      (((DecoderState.mk [] ∅).streams.map Prod.snd).count 5 = 0) ∧
      (((pushIter 0 5 3 ⟨[], ∅⟩).streams.map Prod.snd).count 5 = 1) :=
  ⟨by decide, by decide,
    (C2_push_idempotent 0 5 ⟨[], ∅⟩).2.2 3 (by decide) (by decide) (by decide)⟩

/-- C3. `Decode()` on an empty queue is a no-op with no effects; otherwise it
pops exactly the head `(hdl, s)`, runs the decode step, posts the hypothesis
JSON, and then either (when `Contains(hdl)` and `IsReady(s)`) re-appends
`(hdl, s)` to the queue tail with `s` kept in the Active Set and posts exactly
one further `Decode`, or erases `s` from the Active Set and posts
`Send(hdl, "Done")` exactly when `IsLastFrame(NumFramesReady() - 1)`. -/
theorem C3_decode_step (env : DecodeEnv) (st : DecoderState) :
    (st.streams = [] → OnlineWebsocketDecoder.Decode env st = (st, [])) ∧
    (∀ hdl s rest, st.streams = (hdl, s) :: rest →
      (Effect.decodeStream s ∈ (OnlineWebsocketDecoder.Decode env st).2 ∧
        Effect.postSend hdl (env.resultJson s) ∈
          (OnlineWebsocketDecoder.Decode env st).2) ∧
      (env.contains hdl = true → env.isReady s = true →
        OnlineWebsocketDecoder.Decode env st =
          (⟨rest ++ [(hdl, s)], st.active⟩,
            [Effect.decodeStream s, Effect.postSend hdl (env.resultJson s),
              Effect.postDecode])) ∧
      (¬(env.contains hdl = true ∧ env.isReady s = true) →
        OnlineWebsocketDecoder.Decode env st =
          (⟨rest, st.active.erase s⟩,
            [Effect.decodeStream s, Effect.postSend hdl (env.resultJson s)] ++
              (if env.isLastFrame s then [Effect.postSend hdl "Done"]
                else [])))) := by
  constructor
  · intro hq
    simp [OnlineWebsocketDecoder.Decode, hq]
  · intro hdl s rest hq
    by_cases hg : env.contains hdl = true ∧ env.isReady s = true
    · have hd : OnlineWebsocketDecoder.Decode env st =
          (⟨rest ++ [(hdl, s)], st.active⟩,
            [Effect.decodeStream s, Effect.postSend hdl (env.resultJson s),
              Effect.postDecode]) := by
        simp [OnlineWebsocketDecoder.Decode, hq, hg.1, hg.2]
      refine ⟨?_, fun _ _ => hd, fun h => absurd hg h⟩
      rw [hd]
      simp
    · have hg' : ¬(env.contains hdl && env.isReady s) = true := by
        simpa [Bool.and_eq_true] using hg
      have hd : OnlineWebsocketDecoder.Decode env st =
          (⟨rest, st.active.erase s⟩,
            [Effect.decodeStream s, Effect.postSend hdl (env.resultJson s)] ++
              (if env.isLastFrame s then [Effect.postSend hdl "Done"]
                else [])) := by
        simp only [OnlineWebsocketDecoder.Decode, hq]
        rw [if_neg hg']
      refine ⟨?_, fun h1 h2 => absurd ⟨h1, h2⟩ hg, fun _ => hd⟩
      rw [hd]
      constructor <;> simp

/-- Witness for C3: decoding a one-element queue under an environment where
the connection is gone and the final frame was decoded posts the hypothesis
and then `"Done"`. -/
theorem C3_decode_step_witness :
    OnlineWebsocketDecoder.Decode
        ⟨fun _ => false, fun _ => false, fun _ => "hyp", fun _ => true⟩
        ⟨[(0, 5)], {5}⟩ =
      (⟨[], ∅⟩,
        [Effect.decodeStream 5, Effect.postSend 0 "hyp",
          Effect.postSend 0 "Done"]) := by
  have h := (C3_decode_step
    ⟨fun _ => false, fun _ => false, fun _ => "hyp", fun _ => true⟩
    ⟨[(0, 5)], {5}⟩).2 0 5 [] rfl
  have hd := h.2.2 (by simp)
  rw [hd]
  simp

/-! ## Connection registry: `Contains`, `OnClose`, `Send` -/

/-- The registry `connections_` (a `std::map<connection_hdl, shared_ptr>`),
reduced to its keys and the stream identities they own. -/
abbrev Registry := List (Hdl × StreamId)

/-- `OnlineWebsocketServer::Contains(hdl)`: `connections_.count(hdl)` under
the registry lock. -/
def OnlineWebsocketServer.Contains (conns : Registry) (hdl : Hdl) : Bool :=
  conns.any (fun p => p.1 == hdl)

/-- `OnlineWebsocketServer::OnClose(hdl)`: `connections_.erase(hdl)` under the
registry lock. -/
def OnlineWebsocketServer.OnClose (conns : Registry) (hdl : Hdl) : Registry :=
  conns.filter (fun p => p.1 != hdl)

/-- Outcome of the transport call `server_.send(hdl, text, opcode, ec)`. -/
inductive SendOutcome where
  | ok
  | err (msg : String)
deriving DecidableEq, Repr

/-- What a `Send` call emitted: wire frames and log entries. -/
structure SendResult where
  frames : List (Hdl × String)
  logs : List String
deriving DecidableEq, Repr

/-- `OnlineWebsocketServer::Send(hdl, text)`: return silently when
`!Contains(hdl)`; otherwise send a text frame, and when the transport reports
an error code, write it to the access log and return normally. -/
def OnlineWebsocketServer.Send (conns : Registry) (hdl : Hdl) (text : String)
    (transport : SendOutcome) : SendResult :=
  if ¬ OnlineWebsocketServer.Contains conns hdl then ⟨[], []⟩
  else
    match transport with
    | SendOutcome.ok => ⟨[(hdl, text)], []⟩
    | SendOutcome.err m => ⟨[], [m]⟩

/-- C4. After `OnClose(hdl)`, `Contains(hdl)` is false, and every `Send` to a
handle not in the registry produces no wire frame; when the handle is present
but the transport reports an error, the error is logged and `Send` returns
normally (a total function value, nothing propagates). -/
theorem C4_send_after_close (conns conns' : Registry) (hdl : Hdl)
    (text : String) (outcome : SendOutcome) :
    OnlineWebsocketServer.Contains
        (OnlineWebsocketServer.OnClose conns hdl) hdl = false ∧
    (OnlineWebsocketServer.Contains conns' hdl = false →
      (OnlineWebsocketServer.Send conns' hdl text outcome).frames = []) ∧
    (OnlineWebsocketServer.Contains conns' hdl = true → ∀ m,
      OnlineWebsocketServer.Send conns' hdl text (SendOutcome.err m) =
        ⟨[], [m]⟩) := by
  refine ⟨?_, ?_, ?_⟩
  · simp [OnlineWebsocketServer.Contains, OnlineWebsocketServer.OnClose,
      List.any_eq_true, List.mem_filter]
  · intro h
    simp [OnlineWebsocketServer.Send, h]
  · intro h m
    simp [OnlineWebsocketServer.Send, h]

/-- Witness for C4: closing handle `7` makes `Contains` false, and a transport
error on a live handle is logged without producing a frame. -/
theorem C4_send_after_close_witness :
    OnlineWebsocketServer.Contains
        (OnlineWebsocketServer.OnClose [(7, 1)] 7) 7 = false ∧
    OnlineWebsocketServer.Contains [(7, 1)] 7 = true ∧
    OnlineWebsocketServer.Send [(7, 1)] 7 "hello"
        (SendOutcome.err "broken pipe") = ⟨[], ["broken pipe"]⟩ :=
  ⟨(C4_send_after_close [(7, 1)] [(7, 1)] 7 "hello" SendOutcome.ok).1,
    by decide,
    (C4_send_after_close [(7, 1)] [(7, 1)] 7 "hello" SendOutcome.ok).2.2
      (by decide) "broken pipe"⟩

/-! ## HTTP fallback: `OnHttp` -/

/-- An HTTP response: status code and body. -/
structure HttpResponse where
  status : Nat
  body : String
deriving DecidableEq, Repr

/-- The inline HTML stub the source serves for `/upload.html` and
`/offline_record.html`, pointing the user at `/streaming_record.html`. -/
def redirectHtml : String :=
  "\n<!doctype html><html><head>\n<title>Speech recognition with next-gen Kaldi</title><body>\n<h2>Only /streaming_record.html is available for the online server.<h2>\n<br/>\n<br/>\nGo back to <a href=\"/streaming_record.html\">/streaming_record.html</a>\n</body></head></html>\n    "

/-- `OnlineWebsocketServer::OnHttp`: `/` is rewritten to `/index.html`;
requests other than the two shadowed paths go to
`http_server_.ProcessRequest` (modelled as `process`, returning the `found`
flag and the body it wrote); the shadowed paths get the inline stub while the
`found` flag, initialised to `false`, is left untouched; the status is `ok`
when `found` and `not_found` otherwise. -/
def OnlineWebsocketServer.OnHttp (process : String → Bool × String)
    (resource : String) : HttpResponse :=
  let filename := if resource = "/" then "/index.html" else resource
  let res :=
    if filename ≠ "/upload.html" ∧ filename ≠ "/offline_record.html" then
      process filename
    else (false, redirectHtml)
  ⟨if res.1 then 200 else 404, res.2⟩

/-- Counterexample to C5 as stated: even when the static file server would
find every path, a GET for `/upload.html` is answered with status 404, not
200. -/
theorem C5_counterexample :
    ¬(OnlineWebsocketServer.OnHttp (fun _ => (true, "page"))
        "/upload.html").status = 200 := by
  decide

/-- C5 (amended). An HTTP GET for `/upload.html` (likewise
`/offline_record.html`) is answered with status 404 (`not_found`) and a body
equal to the hardcoded inline HTML stub that redirects the user to
`/streaming_record.html`, whatever the static file server would do. -/
theorem C5_redirect_pages (process : String → Bool × String) :
    OnlineWebsocketServer.OnHttp process "/upload.html" =
        ⟨404, redirectHtml⟩ ∧
      OnlineWebsocketServer.OnHttp process "/offline_record.html" =
        ⟨404, redirectHtml⟩ := by
  constructor <;> rfl

/-! ## WebSocket message handling: `OnMessage` -/

/-- Reinterpretation of a byte payload as packed host-endian 32-bit floats:
`num_samples = payload.size() / sizeof(float)`, so each group of four bytes
is one sample and any trailing `payload.size() % 4` bytes are not read. -/
def toFloats : List Nat → List Sample
  | b0 :: b1 :: b2 :: b3 :: rest => [b0, b1, b2, b3] :: toFloats rest
  | _ => []

theorem toFloats_length : ∀ bytes : List Nat,
    (toFloats bytes).length = bytes.length / 4
  | [] => rfl
  | [_] => by simp [toFloats]
  | [_, _] => by simp [toFloats]
  | [_, _, _] => by simp [toFloats]
  | _ :: _ :: _ :: _ :: rest => by
    have ih := toFloats_length rest
    simp only [toFloats, List.length_cons, ih]
    omega

/-- The bytes of the text payload `"Done"` (ASCII). -/
def doneBytes : List Nat := [68, 111, 110, 101]

/-- WebSocket frame opcodes distinguished by the handler. -/
inductive Opcode where
  | text
  | binary
  | other
deriving DecidableEq, Repr

/-- One incoming frame: opcode and raw payload bytes. -/
structure Message where
  opcode : Opcode
  payload : List Nat
deriving DecidableEq, Repr

/-- The external calls `OnMessage` makes: the feature sample rate from the
recognizer config, and `recognizer->IsReady(stream.get())` as a function of
the stream state after the mutation. -/
structure MsgEnv where
  sampleRate : Nat
  isReady : OnlineStream → Bool

/-- Length of the tail padding tensor
`torch::zeros(static_cast<int64_t>(0.3 * sample_rate))`.  The source computes
`0.3 * sample_rate` in floating point; the model uses the exact rational
floor, which agrees up to the last sample (both are ≈ 0.3 s of audio). -/
def tailPaddingLen (sampleRate : Nat) : Nat := 3 * sampleRate / 10

/-- Server state touched by `OnMessage`: the registry, the stream each
identity points at (`shared_ptr` targets), and the dispatcher state. -/
structure WsState where
  connections : Registry
  store : StreamId → OnlineStream
  decoder : DecoderState

/-- `connections_.find(hdl)`: the registry lookup, `none` when the handle is
absent (the `std::map::find` returned `end()`). -/
def lookupConn : Registry → Hdl → Option StreamId
  | [], _ => none
  | p :: rest, hdl => if p.1 = hdl then some p.2 else lookupConn rest hdl

/-- `OnlineWebsocketServer::OnMessage(hdl, msg)`.  The source reads
`connections_.find(hdl)->second` without checking for `end()`: when the
handle is unknown the iterator dereference is undefined behavior, modelled as
`none`.  Otherwise: a text `"Done"` appends the tail padding, calls
`InputFinished()`, and — exactly when `IsReady` — pushes and posts one
`Decode`; any other text payload does nothing; a binary payload is
reinterpreted as floats, copied (`samples.clone()`) and accepted, then
pushed/posted exactly when `IsReady`; other opcodes do nothing. -/
def OnlineWebsocketServer.OnMessage (env : MsgEnv) (st : WsState) (hdl : Hdl)
    (msg : Message) : Option (WsState × List Effect) :=
  match lookupConn st.connections hdl with
  | none => none
  | some sid =>
    let stream := st.store sid
    some (match msg.opcode with
      | Opcode.text =>
        if msg.payload = doneBytes then
          let stream' := (stream.AcceptWaveform env.sampleRate
            (List.replicate (tailPaddingLen env.sampleRate)
              zeroSample)).InputFinished
          let st' := { st with store := Function.update st.store sid stream' }
          if env.isReady stream' then
            ({ st' with
                decoder := OnlineWebsocketDecoder.Push hdl sid st'.decoder },
              [Effect.postDecode])
          else (st', [])
        else (st, [])
      | Opcode.binary =>
        let stream' := stream.AcceptWaveform env.sampleRate
          (toFloats msg.payload)
        let st' := { st with store := Function.update st.store sid stream' }
        if env.isReady stream' then
          ({ st' with
              decoder := OnlineWebsocketDecoder.Push hdl sid st'.decoder },
            [Effect.postDecode])
        else (st', [])
      | Opcode.other => (st, []))

/-- A concrete one-connection server state for exercising `OnMessage`:
handle `0` owns stream `0`, which is empty. -/
def wsEx : WsState :=
  ⟨[(0, 0)], fun _ => ⟨[], false⟩, ⟨[], ∅⟩⟩

/-- Environment whose recognizer always reports ready. -/
def envReady : MsgEnv := ⟨16000, fun _ => true⟩

/-- Environment whose recognizer never reports ready. -/
def envNotReady : MsgEnv := ⟨16000, fun _ => false⟩

/-- Evaluation of `OnMessage` on a binary frame once the lookup succeeds. -/
theorem OnMessage_binary_eq (env : MsgEnv) (st : WsState) (hdl : Hdl)
    (sid : StreamId) (payload : List Nat)
    (hconn : lookupConn st.connections hdl = some sid) :
    OnlineWebsocketServer.OnMessage env st hdl ⟨Opcode.binary, payload⟩ =
      some
        (if env.isReady ((st.store sid).AcceptWaveform env.sampleRate
            (toFloats payload)) then
          (⟨st.connections,
            Function.update st.store sid
              ((st.store sid).AcceptWaveform env.sampleRate
                (toFloats payload)),
            OnlineWebsocketDecoder.Push hdl sid st.decoder⟩,
            [Effect.postDecode])
        else
          (⟨st.connections,
            Function.update st.store sid
              ((st.store sid).AcceptWaveform env.sampleRate
                (toFloats payload)),
            st.decoder⟩, [])) := by
  simp only [OnlineWebsocketServer.OnMessage, hconn]

/-- Evaluation of `OnMessage` on the text frame `"Done"` once the lookup
succeeds. -/
theorem OnMessage_done_eq (env : MsgEnv) (st : WsState) (hdl : Hdl)
    (sid : StreamId)
    (hconn : lookupConn st.connections hdl = some sid) :
    OnlineWebsocketServer.OnMessage env st hdl ⟨Opcode.text, doneBytes⟩ =
      some
        (if env.isReady (((st.store sid).AcceptWaveform env.sampleRate
            (List.replicate (tailPaddingLen env.sampleRate)
              zeroSample)).InputFinished) then
          (⟨st.connections,
            Function.update st.store sid
              (((st.store sid).AcceptWaveform env.sampleRate
                (List.replicate (tailPaddingLen env.sampleRate)
                  zeroSample)).InputFinished),
            OnlineWebsocketDecoder.Push hdl sid st.decoder⟩,
            [Effect.postDecode])
        else
          (⟨st.connections,
            Function.update st.store sid
              (((st.store sid).AcceptWaveform env.sampleRate
                (List.replicate (tailPaddingLen env.sampleRate)
                  zeroSample)).InputFinished),
            st.decoder⟩, [])) := by
  simp only [OnlineWebsocketServer.OnMessage, hconn]
  rfl

/-- C6. The claim says a message on an unknown handle is ignored harmlessly;
the source instead evaluates `connections_.find(hdl)->second` without an
`end()` check, so the lookup's failure leaves `OnMessage` with no defined
result (dereferencing the past-the-end iterator is undefined behavior):
on the empty registry the model yields `none`, not a harmless no-op. -/
theorem C6_unknown_handle_no_defined_result :
    OnlineWebsocketServer.OnMessage envNotReady
        ⟨[], fun _ => ⟨[], false⟩, ⟨[], ∅⟩⟩ 0
        ⟨Opcode.binary, [0, 0, 0, 0]⟩ = none := rfl

/-- Counterexample to C7 as stated: a 6-byte binary payload is not dropped —
the handler accepts `6 / 4 = 1` sample from it. -/
theorem C7_counterexample :
    (OnlineWebsocketServer.OnMessage envNotReady wsEx 0
          ⟨Opcode.binary, [1, 2, 3, 4, 5, 6]⟩).map
        (fun r => (r.1.store 0).samples.length) = some 1 := by
  rfl

/-- C7 (amended). A binary frame whose payload length is not a multiple of 4
is silently truncated to the largest multiple of 4: exactly
`payload.size() / 4` samples are accepted and the trailing bytes are
discarded. -/
theorem C7_truncated_to_multiple_of_4 (env : MsgEnv) (st : WsState)
    (hdl : Hdl) (sid : StreamId) (payload : List Nat)
    (hconn : lookupConn st.connections hdl = some sid) :
    (OnlineWebsocketServer.OnMessage env st hdl
          ⟨Opcode.binary, payload⟩).map
        (fun r => (r.1.store sid).samples.length) =
      some ((st.store sid).samples.length + payload.length / 4) := by
  rw [OnMessage_binary_eq env st hdl sid payload hconn]
  split <;> simp [OnlineStream.AcceptWaveform, toFloats_length]

/-- Witness for C7 (amended): a 7-byte payload yields exactly one accepted
sample. -/
theorem C7_truncated_witness :
    lookupConn wsEx.connections 0 = some 0 ∧
      (OnlineWebsocketServer.OnMessage envNotReady wsEx 0
            ⟨Opcode.binary, [1, 2, 3, 4, 5, 6, 7]⟩).map
          (fun r => (r.1.store 0).samples.length) =
        some ((wsEx.store 0).samples.length +
          ([1, 2, 3, 4, 5, 6, 7] : List Nat).length / 4) :=
  ⟨rfl, C7_truncated_to_multiple_of_4 envNotReady wsEx 0 0 _ rfl⟩

/-- C8. A binary frame of `4 * n` bytes is reinterpreted as `n` host-endian
32-bit floats; the stream's buffer afterwards holds the old samples followed
by a copy of exactly those values, so the accumulated sample count grows by
exactly `n`; then the handler pushes `(hdl, stream)` and posts exactly one
`Decode` to the work context iff `IsReady` holds, and otherwise leaves the
dispatcher untouched with no effect. -/
theorem C8_binary_accepts_n_samples (env : MsgEnv) (st : WsState) (hdl : Hdl)
    (sid : StreamId) (payload : List Nat) (n : Nat)
    (hconn : lookupConn st.connections hdl = some sid)
    (hlen : payload.length = 4 * n) :
    ((OnlineWebsocketServer.OnMessage env st hdl
          ⟨Opcode.binary, payload⟩).map
        (fun r => (r.1.store sid).samples) =
      some ((st.store sid).samples ++ toFloats payload)) ∧
    ((OnlineWebsocketServer.OnMessage env st hdl
          ⟨Opcode.binary, payload⟩).map
        (fun r => (r.1.store sid).samples.length) =
      some ((st.store sid).samples.length + n)) ∧
    (env.isReady ((st.store sid).AcceptWaveform env.sampleRate
        (toFloats payload)) = true →
      (OnlineWebsocketServer.OnMessage env st hdl
            ⟨Opcode.binary, payload⟩).map (fun r => (r.1.decoder, r.2)) =
        some (OnlineWebsocketDecoder.Push hdl sid st.decoder,
          [Effect.postDecode])) ∧
    (env.isReady ((st.store sid).AcceptWaveform env.sampleRate
        (toFloats payload)) = false →
      (OnlineWebsocketServer.OnMessage env st hdl
            ⟨Opcode.binary, payload⟩).map (fun r => (r.1.decoder, r.2)) =
        some (st.decoder, [])) := by
  refine ⟨?_, ?_, ?_, ?_⟩
  · rw [OnMessage_binary_eq env st hdl sid payload hconn]
    split <;> simp [OnlineStream.AcceptWaveform]
  · have := C7_truncated_to_multiple_of_4 env st hdl sid payload hconn
    rw [this, hlen]
    congr 1
    omega
  · intro h
    rw [OnMessage_binary_eq env st hdl sid payload hconn]
    simp [h]
  · intro h
    rw [OnMessage_binary_eq env st hdl sid payload hconn]
    simp [h]

/-- Witness for C8: an 8-byte payload on a ready recognizer accepts two
samples, pushes the stream and posts one `Decode`. -/
theorem C8_binary_accepts_n_samples_witness :
    lookupConn wsEx.connections 0 = some 0 ∧
      (([1, 2, 3, 4, 5, 6, 7, 8] : List Nat).length = 4 * 2) ∧
      ((OnlineWebsocketServer.OnMessage envReady wsEx 0
            ⟨Opcode.binary, [1, 2, 3, 4, 5, 6, 7, 8]⟩).map
          (fun r => (r.1.store 0).samples.length) =
        some ((wsEx.store 0).samples.length + 2)) :=
  ⟨rfl, by decide,
    (C8_binary_accepts_n_samples envReady wsEx 0 0 _ 2 rfl (by decide)).2.1⟩

/-- C9. On a text frame `"Done"`, the handler first appends the ≈ 0.3 s tail
padding of zero samples at the model sample rate via `AcceptWaveform`, then
calls `InputFinished()`, and then pushes `(hdl, stream)` and posts exactly
one `Decode` to the work context iff `IsReady` holds on the flushed
stream. -/
theorem C9_done_flushes_stream (env : MsgEnv) (st : WsState) (hdl : Hdl)
    (sid : StreamId)
    (hconn : lookupConn st.connections hdl = some sid) :
    ((OnlineWebsocketServer.OnMessage env st hdl
          ⟨Opcode.text, doneBytes⟩).map (fun r => r.1.store sid) =
      some (((st.store sid).AcceptWaveform env.sampleRate
        (List.replicate (tailPaddingLen env.sampleRate)
          zeroSample)).InputFinished)) ∧
    ((OnlineWebsocketServer.OnMessage env st hdl
          ⟨Opcode.text, doneBytes⟩).map
        (fun r => (r.1.store sid).samples) =
      some ((st.store sid).samples ++
        List.replicate (tailPaddingLen env.sampleRate) zeroSample)) ∧
    ((OnlineWebsocketServer.OnMessage env st hdl
          ⟨Opcode.text, doneBytes⟩).map
        (fun r => (r.1.store sid).finished) = some true) ∧
    (env.isReady (((st.store sid).AcceptWaveform env.sampleRate
        (List.replicate (tailPaddingLen env.sampleRate)
          zeroSample)).InputFinished) = true →
      (OnlineWebsocketServer.OnMessage env st hdl
            ⟨Opcode.text, doneBytes⟩).map (fun r => (r.1.decoder, r.2)) =
        some (OnlineWebsocketDecoder.Push hdl sid st.decoder,
          [Effect.postDecode])) ∧
    (env.isReady (((st.store sid).AcceptWaveform env.sampleRate
        (List.replicate (tailPaddingLen env.sampleRate)
          zeroSample)).InputFinished) = false →
      (OnlineWebsocketServer.OnMessage env st hdl
            ⟨Opcode.text, doneBytes⟩).map (fun r => (r.1.decoder, r.2)) =
        some (st.decoder, [])) := by
  refine ⟨?_, ?_, ?_, ?_, ?_⟩
  · rw [OnMessage_done_eq env st hdl sid hconn]
    split <;> simp
  · rw [OnMessage_done_eq env st hdl sid hconn]
    split <;>
      simp [OnlineStream.AcceptWaveform, OnlineStream.InputFinished]
  · rw [OnMessage_done_eq env st hdl sid hconn]
    split <;>
      simp [OnlineStream.AcceptWaveform, OnlineStream.InputFinished]
  · intro h
    rw [OnMessage_done_eq env st hdl sid hconn]
    simp [h]
  · intro h
    rw [OnMessage_done_eq env st hdl sid hconn]
    simp [h]

/-- Witness for C9: on `"Done"` with a 16 kHz model and a never-ready
recognizer, the empty stream ends with 4800 zero samples, finished, and no
`Decode` posted. -/
theorem C9_done_flushes_stream_witness :
    lookupConn wsEx.connections 0 = some 0 ∧
      ((OnlineWebsocketServer.OnMessage envNotReady wsEx 0
            ⟨Opcode.text, doneBytes⟩).map
          (fun r => (r.1.store 0).samples) =
        some ((wsEx.store 0).samples ++
          List.replicate (tailPaddingLen envNotReady.sampleRate)
            zeroSample)) ∧
      ((OnlineWebsocketServer.OnMessage envNotReady wsEx 0
            ⟨Opcode.text, doneBytes⟩).map
          (fun r => (r.1.store 0).finished) = some true) :=
  ⟨rfl, (C9_done_flushes_stream envNotReady wsEx 0 0 rfl).2.1,
    (C9_done_flushes_stream envNotReady wsEx 0 0 rfl).2.2.1⟩

/-- C10. A text frame whose payload is anything other than exactly `"Done"`
is ignored completely: the handler returns with the server state —
connections, every stream, and the dispatcher — unchanged, and produces no
effect. -/
theorem C10_non_done_text_ignored (env : MsgEnv) (st : WsState) (hdl : Hdl)
    (sid : StreamId) (payload : List Nat)
    (hconn : lookupConn st.connections hdl = some sid)
    (hne : payload ≠ doneBytes) :
    OnlineWebsocketServer.OnMessage env st hdl ⟨Opcode.text, payload⟩ =
      some (st, []) := by
  simp [OnlineWebsocketServer.OnMessage, hconn, hne]

/-- Witness for C10: the text payload `"X"` leaves the server state exactly
as it was, with no effects. -/
theorem C10_non_done_text_ignored_witness :
    lookupConn wsEx.connections 0 = some 0 ∧
      ([88] : List Nat) ≠ doneBytes ∧
      OnlineWebsocketServer.OnMessage envReady wsEx 0
          ⟨Opcode.text, [88]⟩ = some (wsEx, []) :=
  ⟨rfl, by decide,
    C10_non_done_text_ignored envReady wsEx 0 0 [88] rfl (by decide)⟩

end Sherpa
